import Mathlib

/-!
Shallow embedding of the AirTrans / SuperFast_transfer code base
(src/api/apitran.py, src/api/utils.py, src/api/app.py, src/api/discovery.py)
together with theorems checking the specification's claims against it.

Bytes are modelled as `List Nat`.  SHA-256 hex digests are modelled by an
arbitrary digest function `Hash : List Nat → String` standing for
`hashlib.sha256(data).hexdigest()`: every claim under study depends only on
equality of digests, never on the concrete hash.  Timestamps (`time.time()`
floats) are modelled as rationals.  Python dicts are modelled as
insertion-ordered association lists.
-/

namespace AirTrans

/-- A digest function standing for `hashlib.sha256(data).hexdigest()`. -/
abbrev Hash := List Nat → String

/-! ### Python dicts as insertion-ordered association lists -/

/-- `d[k] = v` on a Python dict: replace the value in place if the key is
present, append the pair otherwise. -/
def setKV {α β : Type} [DecidableEq α] : List (α × β) → α → β → List (α × β)
  | [], k, v => [(k, v)]
  | (k₁, v₁) :: rest, k, v =>
    if k₁ = k then (k, v) :: rest else (k₁, v₁) :: setKV rest k v

/-- `d.get(k)` on a Python dict. -/
def getKV {α β : Type} [DecidableEq α] (d : List (α × β)) (k : α) : Option β :=
  (d.find? fun kv => decide (kv.1 = k)).map fun kv => kv.2

/-! ### Chunk partitioning

`AirTransSender.send_file` (src/api/apitran.py lines 104-110):
`chunk_size = self.filesize // self.num_parts`, and for `i` in
`range(self.num_parts)` chunk `i` is `file_data[start:end]` with
`start = i * chunk_size` and `end = start + chunk_size` for the interior
chunks and `end = self.filesize` for the last one. -/

/-- The chunk list computed by `AirTransSender.send_file`. -/
def sendChunks (fileData : List Nat) (numParts : Nat) : List (List Nat) :=
  let filesize := fileData.length
  let chunkSize := filesize / numParts
  (List.range numParts).map fun i =>
    let start := i * chunkSize
    let stop := if i < numParts - 1 then start + chunkSize else filesize
    (fileData.drop start).take (stop - start)

/-- One `f.read(k)` on an open file at position `pos`: returns the bytes read
and the new position (the position advances by the number of bytes actually
returned). -/
def fread (fileData : List Nat) (pos k : Nat) : List Nat × Nat :=
  let d := (fileData.drop pos).take k
  (d, pos + d.length)

/-- One iteration of the sequential split loop shared by
`FileChunker.split_file` (src/api/utils.py lines 45-61) and
`ChecksumManager.calculate_chunk_checksums` (lines 136-144): read
`chunk_size` bytes, except on the last iteration read
`filesize - chunk_size * (num_parts - 1)` bytes. -/
def seqStep (fileData : List Nat) (numParts : Nat)
    (acc : List (List Nat) × Nat) (i : Nat) : List (List Nat) × Nat :=
  let filesize := fileData.length
  let chunkSize := filesize / numParts
  let sz := if i = numParts - 1 then filesize - chunkSize * (numParts - 1) else chunkSize
  let r := fread fileData acc.2 sz
  (acc.1 ++ [r.1], r.2)

/-- The chunk-data sequence produced by the sequential read loops of
`FileChunker.split_file` and `ChecksumManager.calculate_chunk_checksums`
(their loops are textually identical up to what is done with each chunk). -/
def seqChunks (fileData : List Nat) (numParts : Nat) : List (List Nat) :=
  ((List.range numParts).foldl (seqStep fileData numParts) ([], 0)).1

/-- `ChecksumManager.calculate_chunk_checksums`: the digest of each chunk of
the sequential split, in order. -/
def calculate_chunk_checksums (h : Hash) (fileData : List Nat) (numParts : Nat) :
    List String :=
  (seqChunks fileData numParts).map h

/-- Normal form used in proofs: `m` slices of `cs` bytes at offsets
`0, cs, 2*cs, …` followed by everything from offset `m * cs` on. -/
def chunksNF (F : List Nat) (cs m : Nat) : List (List Nat) :=
  ((List.range m).map fun i => (F.drop (i * cs)).take cs) ++ [F.drop (m * cs)]

/-! ### Wire model (per-connection TCP stream)

Each connection carries a length-prefixed MessagePack preamble followed by
the raw payload bytes.  The framing bytes themselves are not at issue in any
claim; a connection is modelled as the decoded preamble paired with the
payload byte stream that follows it. -/

/-- The decoded preamble sent by `AirTransSender._handle_client`
(src/api/apitran.py lines 63-67). -/
structure Preamble where
  chunk_id : Nat
  size : Nat
  checksum : String
deriving DecidableEq

/-- The 1 MiB block read loop of `AirTransReceiver.receive_chunk`
(src/api/apitran.py lines 174-185): while fewer than `chunkSize` bytes have
accumulated, read up to 1 MiB; stop on an empty read (EOF).  `fuel` bounds
the number of iterations; every iteration either stops or consumes at least
one byte of the stream, so any fuel exceeding the stream length is enough. -/
def readChunkLoop (chunkSize : Nat) : Nat → List Nat → List Nat → List Nat
  | 0, _, acc => acc
  | fuel + 1, stream, acc =>
    if acc.length < chunkSize then
      let block := stream.take 1048576
      if block.isEmpty then acc
      else readChunkLoop chunkSize fuel (stream.drop 1048576) (acc ++ block)
    else acc

/-- The bytes accumulated in `chunk_data` by the read loop of
`receive_chunk`, starting from an empty buffer. -/
def readChunkData (chunkSize : Nat) (stream : List Nat) : List Nat :=
  readChunkLoop chunkSize (stream.length + 1) stream []

/-- `self.chunks` of `AirTransReceiver`: chunk bytes keyed by integer id. -/
abbrev ChunkMap := Nat → Option (List Nat)

/-- `AirTransReceiver.receive_chunk` (src/api/apitran.py lines 159-203) on
one connection: read the payload, compare its digest with the preamble's
`checksum`, raise on mismatch, otherwise store the bytes.  The stored key is
the `chunkId` argument — the port index from `enumerate(metadata['ports'])`
in `receive_file`; the `chunk_id` field of the received preamble is never
read by the receiver. -/
def receive_chunk (h : Hash) (pre : Preamble) (streamData : List Nat)
    (chunkId : Nat) (chunks : ChunkMap) : Except String ChunkMap :=
  let chunkData := readChunkData pre.size streamData
  if h chunkData ≠ pre.checksum then
    .error ("Chunk " ++ toString chunkId ++ " checksum mismatch!")
  else
    .ok fun j => if j = chunkId then some chunkData else chunks j

/-- The sequence of `receive_chunk` calls issued by `receive_file` for the
connections in port order, threading `self.chunks`; the first raised error
aborts the transfer (`asyncio.gather` propagates it). -/
def receiveChunksLoop (h : Hash) : List (Preamble × List Nat) → Nat → ChunkMap →
    Except String ChunkMap
  | [], _, chunks => .ok chunks
  | (pre, data) :: rest, i, chunks =>
    match receive_chunk h pre data i chunks with
    | .error e => .error e
    | .ok chunks' => receiveChunksLoop h rest (i + 1) chunks'

/-- Reassembly loop of `receive_file` (src/api/apitran.py lines 221-223):
write `self.chunks[i]` for `i in range(num_parts)`; a missing key raises
`KeyError`. -/
def reassemble (chunks : ChunkMap) : Nat → Except String (List Nat)
  | 0 => .ok []
  | n + 1 =>
    match reassemble chunks n, chunks n with
    | .error e, _ => .error e
    | .ok _, none => .error "KeyError"
    | .ok front, some c => .ok (front ++ c)

/-- The transfer descriptor fields used by the engine (the dict returned by
`send_file` / consumed by `AirTransReceiver`). -/
structure Metadata where
  filename : String
  filesize : Nat
  ports : List Nat
  num_parts : Nat
  checksum : String
deriving DecidableEq

/-- The receiver-side filesystem: contents keyed by path. -/
abbrev FS := List (String × List Nat)

/-- `AirTransReceiver.receive_file` (src/api/apitran.py lines 205-238) over
the per-connection streams (entry `i` is the stream obtained on
`ports[i]`): receive every chunk, write the reassembled bytes to
`output_dir/filename`, read the written file back, hash it and compare with
the descriptor checksum; raise on mismatch, otherwise return the output
path.  Returns the filesystem after the call together with the outcome. -/
def receive_file (h : Hash) (meta : Metadata) (streams : List (Preamble × List Nat))
    (outputDir : String) (fs : FS) : FS × Except String String :=
  match receiveChunksLoop h streams 0 (fun _ => none) with
  | .error e => (fs, .error e)
  | .ok chunks =>
    match reassemble chunks meta.num_parts with
    | .error e => (fs, .error e)
    | .ok fileData =>
      let outputPath := outputDir ++ "/" ++ meta.filename
      let fs' := setKV fs outputPath fileData
      if h fileData ≠ meta.checksum then (fs', .error "Final file checksum mismatch!")
      else (fs', .ok outputPath)

/-- The streams offered by the sender's listeners, one per chunk:
`for i, (chunk, port) in enumerate(zip(chunks, ports))`, each serving the
preamble `{chunk_id: i, size: len(chunk), checksum: sha256(chunk)}` followed
by the chunk bytes (`AirTransSender._handle_client`). -/
def mkStreams (h : Hash) : Nat → List (List Nat) → List (Preamble × List Nat)
  | _, [] => []
  | i, c :: rest => (⟨i, c.length, h c⟩, c) :: mkStreams h (i + 1) rest

/-- All streams served by `AirTransSender.send_file` for file `F` split into
`n` parts. -/
def senderStreams (h : Hash) (F : List Nat) (n : Nat) : List (Preamble × List Nat) :=
  mkStreams h 0 (sendChunks F n)

/-- The transfer metadata assembled by `AirTransSender.send_file`
(ports are `[base_port + i for i in range(num_parts)]`, checksum is the
whole-file digest). -/
def senderMetadata (h : Hash) (F : List Nat) (n : Nat) (filename : String)
    (basePort : Nat) : Metadata :=
  { filename := filename, filesize := F.length,
    ports := (List.range n).map (basePort + ·), num_parts := n, checksum := h F }

/-! ### HTTP session service (src/api/app.py)

Request payload values are JSON; dict lookups with `.get` are modelled as
`Option` fields.  A handler outcome is the HTTP status code paired with the
updated state; handler code paths that raise are modelled with `Except`. -/

/-- A descriptor as carried in a `/join-session` request body: the six
fields read by `TransferMetadata.validate_metadata`, each possibly missing.
(`chunk_checksums`, `compression` and `version` are carried opaquely and
never read by the handlers modelled here.) -/
structure PyMetadata where
  filename : Option String
  filesize : Option Int
  ip : Option String
  ports : Option (List Int)
  num_parts : Option Int
  checksum : Option String
deriving DecidableEq

/-- `TransferMetadata.validate_metadata` (src/api/utils.py lines 284-302):
every required field must be present, and `ports` must be a list whose
length equals `num_parts`.  No other condition is checked — in particular
`filesize` is never range-checked. -/
def validate_metadata (m : PyMetadata) : Bool :=
  if m.filename.isNone then false
  else if m.filesize.isNone then false
  else if m.ip.isNone then false
  else if m.ports.isNone then false
  else if m.num_parts.isNone then false
  else if m.checksum.isNone then false
  else
    match m.ports, m.num_parts with
    | some ps, some np => if (ps.length : Int) ≠ np then false else true
    | _, _ => false

/-- A record of the in-memory `sessions` table of src/api/app.py. -/
structure AppSession where
  metadata : PyMetadata
  status : String
  role : Option String
  progress : List (Int × Int)
deriving DecidableEq

/-- `join_session` (src/api/app.py lines 163-215): 400 when the body has no
`metadata` or validation fails (the table is untouched); otherwise store a
fresh receiver session in state `ready` with zeroed per-part progress
counters and answer 200.  `newId` is the freshly drawn uuid. -/
def join_session (sessions : List (String × AppSession)) (body : Option PyMetadata)
    (newId : String) : Nat × List (String × AppSession) :=
  match body with
  | none => (400, sessions)
  | some m =>
    if validate_metadata m = false then (400, sessions)
    else
      -- `num_parts` is present here: `validate_metadata` checked it.
      let np := (m.num_parts.getD 0).toNat
      (200, setKV sessions newId
        ⟨m, "ready", some "receiver", (List.range np).map fun i => ((i : Int), 0)⟩)

/-- The fields of the `/progress/{id}` JSON response modelled here.  (The
handler also emits `percentage = total/filesize * 100` rounded to two
decimals for display; the division is what makes `filesize = 0` raise.) -/
structure ProgressResp where
  status : String
  total_transferred : Int
  filesize : Int
  percentage : ℚ
  num_parts : Int
deriving DecidableEq

/-- `get_progress` (src/api/app.py lines 218-248) on a found session:
`total_transferred = sum(session['progress'].values())`; computing the
percentage divides by `filesize`, raising `ZeroDivisionError` when it is
zero.  (Display rounding of the percentage is not modelled.) -/
def get_progress (session : AppSession) : Except String ProgressResp :=
  match session.metadata.filesize, session.metadata.num_parts with
  | some fsz, some np =>
    let total := (session.progress.map fun kv => kv.2).sum
    if fsz = 0 then .error "ZeroDivisionError"
    else .ok ⟨session.status, total, fsz, (total : ℚ) / (fsz : ℚ) * 100, np⟩
  | _, _ => .error "KeyError"

/-- `update_progress` (src/api/app.py lines 251-289) on a found session:
400 when `chunk_id` or `bytes_transferred` is absent; otherwise store the
reported value under `chunk_id` (adding the key if new), recompute the total
and set the status to `completed` when `total >= filesize` and to
`transferring` otherwise.  No bound against `filesize` and no checksum is
ever consulted.  (A session lacking `filesize` would raise after the
mutation; handler answers 500.) -/
def update_progress (session : AppSession) (chunk_id bytes_transferred : Option Int) :
    Nat × AppSession :=
  match chunk_id, bytes_transferred with
  | some cid, some b =>
    let progress := setKV session.progress cid b
    match session.metadata.filesize with
    | none => (500, { session with progress := progress })
    | some fsz =>
      let total := (progress.map fun kv => kv.2).sum
      let st := if total ≥ fsz then "completed" else "transferring"
      (200, { session with progress := progress, status := st })
  | _, _ => (400, session)

/-- Python truthiness of an optional string (`None` and `""` are falsy). -/
def truthyS : Option String → Bool
  | none => false
  | some s => decide (s ≠ "")

/-- The JSON response of `/complete/{id}`. -/
structure CompleteResp where
  status : String
  checksum_match : Option Bool
  expected_checksum : String
deriving DecidableEq

/-- `complete_transfer` (src/api/app.py lines 292-337) on a found session:
`checksum_match` is computed from the output file when a truthy
`output_path` is given (`ChecksumManager.verify_file`; a missing file
raises, answered 500), else from string comparison when a truthy `checksum`
is given, else stays `None`; the session status becomes `completed` exactly
when `checksum_match` is truthy and `failed` otherwise. -/
def complete_transfer (h : Hash) (fs : FS) (session : AppSession)
    (output_path checksum : Option String) :
    Except String (CompleteResp × AppSession) :=
  match session.metadata.checksum with
  | none => .error "KeyError"
  | some expected =>
    let cmE : Except String (Option Bool) :=
      if truthyS output_path then
        match getKV fs (output_path.getD "") with
        | none => .error "FileNotFoundError"
        | some bytes => .ok (some (decide (h bytes = expected)))
      else if truthyS checksum then .ok (some (decide (checksum.getD "" = expected)))
      else .ok none
    match cmE with
    | .error e => .error e
    | .ok cm =>
      let st := if cm = some true then "completed" else "failed"
      .ok (⟨st, cm, expected⟩, { session with status := st })

/-! ### Peer discovery (src/api/discovery.py) -/

/-- A peer record as stored in `self.peers`, keyed by IP.  `time.time()`
floats are modelled as rationals. -/
structure PeerRec where
  device_name : String
  ip : String
  api_port : Int
  last_seen : ℚ
deriving DecidableEq

namespace PeerDiscovery

/-- `PeerDiscovery.get_peers` (src/api/discovery.py lines 183-201): collect
the ids with `current_time - peer['last_seen'] > 30`, delete each of them
from the table, and return the remaining peer records.  The result is the
returned list paired with the table after the deletions. -/
def get_peers (peers : List (String × PeerRec)) (now : ℚ) :
    List PeerRec × List (String × PeerRec) :=
  let remaining := peers.filter fun kv => decide (¬ now - kv.2.last_seen > 30)
  (remaining.map fun kv => kv.2, remaining)

end PeerDiscovery

namespace MulticastDiscovery

/-- `MulticastDiscovery.get_peers` (src/api/discovery.py lines 307-314):
return the peers with `current_time - peer['last_seen'] < 30`; the table
itself is never mutated.  The result is the returned list paired with the
(unchanged) table. -/
def get_peers (peers : List (String × PeerRec)) (now : ℚ) :
    List PeerRec × List (String × PeerRec) :=
  ((peers.filter fun kv => decide (now - kv.2.last_seen < 30)).map fun kv => kv.2,
   peers)

end MulticastDiscovery

end AirTrans

namespace AirTrans

/-! ## Helper lemmas -/

theorem getKV_setKV_self {α β : Type} [DecidableEq α] (d : List (α × β)) (k : α) (v : β) :
    getKV (setKV d k v) k = some v := by
  induction d with
  | nil => simp [setKV, getKV]
  | cons kv rest ih =>
    obtain ⟨k₁, v₁⟩ := kv
    by_cases hk : k₁ = k
    · simp [setKV, hk, getKV]
    · simpa [setKV, hk, getKV] using ih

theorem getKV_setKV_ne {α β : Type} [DecidableEq α] (d : List (α × β)) (k k' : α) (v : β)
    (hne : k' ≠ k) : getKV (setKV d k v) k' = getKV d k' := by
  induction d with
  | nil => simp [setKV, getKV, Ne.symm hne]
  | cons kv rest ih =>
    obtain ⟨k₁, v₁⟩ := kv
    by_cases hk : k₁ = k
    · subst hk
      simp [setKV, getKV, hne, Ne.symm hne]
    · by_cases hk' : k₁ = k'
      · subst hk'
        simp [setKV, hk, getKV, hne]
      · simpa [setKV, hk, getKV, hk'] using ih

theorem chunksNF_succ (F : List Nat) (cs m : Nat) :
    chunksNF F cs (m + 1) = F.take cs :: chunksNF (F.drop cs) cs m := by
  unfold chunksNF
  rw [List.range_succ_eq_map, List.map_cons, List.map_map]
  simp only [List.cons_append]
  congr 1
  · simp
  · congr 1
    · apply List.map_congr_left
      intro i _
      simp [Function.comp, List.drop_drop, Nat.succ_mul, Nat.add_comm]
    · simp [List.drop_drop, Nat.succ_mul, Nat.add_comm]

theorem flatten_chunksNF (F : List Nat) (cs m : Nat) :
    (chunksNF F cs m).flatten = F := by
  induction m generalizing F with
  | zero => simp [chunksNF]
  | succ m ih => rw [chunksNF_succ]; simp [ih]

theorem sendChunks_eq_chunksNF (F : List Nat) (n : Nat) (hn : 1 ≤ n) :
    sendChunks F n = chunksNF F (F.length / n) (n - 1) := by
  obtain ⟨m, rfl⟩ : ∃ m, n = m + 1 := ⟨n - 1, (Nat.succ_pred_eq_of_pos hn).symm⟩
  unfold sendChunks chunksNF
  rw [List.range_succ, List.map_append]
  simp only [Nat.add_sub_cancel]
  congr 1
  · apply List.map_congr_left
    intro i hi
    rw [List.mem_range] at hi
    simp [hi, Nat.add_sub_cancel_left]
  · simp only [List.map_cons, List.map_nil, lt_irrefl, if_false]
    congr 1
    rw [← List.length_drop]
    exact List.take_length _

theorem seqChunks_inv (F : List Nat) (m k : Nat) (hk : k ≤ m) :
    (List.range k).foldl (seqStep F (m + 1)) ([], 0) =
      (((List.range k).map fun i =>
          (F.drop (i * (F.length / (m + 1)))).take (F.length / (m + 1))),
        k * (F.length / (m + 1))) := by
  induction k with
  | zero => simp
  | succ j ih =>
    have hj : j ≤ m := Nat.le_of_succ_le hk
    have hjm : j < m := hk
    rw [List.range_succ, List.foldl_append, ih hj]
    have hbound : (j + 1) * (F.length / (m + 1)) ≤ F.length := by
      calc (j + 1) * (F.length / (m + 1)) ≤ (m + 1) * (F.length / (m + 1)) :=
            Nat.mul_le_mul_right _ (by omega)
        _ = (F.length / (m + 1)) * (m + 1) := Nat.mul_comm _ _
        _ ≤ F.length := Nat.div_mul_le_self _ _
    simp only [List.foldl_cons, List.foldl_nil, seqStep, fread]
    rw [if_neg (by omega : ¬ j = m + 1 - 1)]
    have hlen : ((F.drop (j * (F.length / (m + 1)))).take (F.length / (m + 1))).length =
        F.length / (m + 1) := by
      rw [List.length_take, List.length_drop]
      rw [Nat.succ_mul] at hbound
      omega
    simp [List.map_append, hlen, Nat.succ_mul]

theorem seqChunks_eq_chunksNF (F : List Nat) (n : Nat) (hn : 1 ≤ n) :
    seqChunks F n = chunksNF F (F.length / n) (n - 1) := by
  obtain ⟨m, rfl⟩ : ∃ m, n = m + 1 := ⟨n - 1, (Nat.succ_pred_eq_of_pos hn).symm⟩
  unfold seqChunks
  rw [List.range_succ, List.foldl_append, seqChunks_inv F m m le_rfl]
  simp only [List.foldl_cons, List.foldl_nil, seqStep, fread, Nat.add_sub_cancel]
  rw [if_pos trivial]
  have h1 : (F.drop (m * (F.length / (m + 1)))).take
        (F.length - F.length / (m + 1) * m) = F.drop (m * (F.length / (m + 1))) := by
    have h2 : F.length - F.length / (m + 1) * m =
        (F.drop (m * (F.length / (m + 1)))).length := by
      rw [List.length_drop, Nat.mul_comm]
    rw [h2, List.take_length]
  simp [chunksNF, h1]


theorem chunksNF_getElem_lt (F : List Nat) (cs m i : Nat) (hi : i < m) :
    (chunksNF F cs m)[i]? = some ((F.drop (i * cs)).take cs) := by
  unfold chunksNF
  rw [List.getElem?_append, if_pos (by simpa using hi)]
  simp [List.getElem?_range, hi]

theorem chunksNF_getElem_last (F : List Nat) (cs m : Nat) :
    (chunksNF F cs m)[m]? = some (F.drop (m * cs)) := by
  unfold chunksNF
  rw [List.getElem?_append, if_neg (by simp)]
  simp

/-! ## Claim C2: deterministic partitioning -/

/-- C2: for every byte sequence `F` and every `n ≥ 1`, the sender's chunking
assigns part `i < n-1` the slice of length `|F| / n` starting at offset
`i * (|F| / n)`, assigns part `n-1` the remaining
`|F| - (n-1) * (|F| / n)` bytes, the concatenation of the parts in order
equals `F`, and the same partitioning is produced by the sequential read
loops of `FileChunker.split_file` and
`ChecksumManager.calculate_chunk_checksums`. -/
theorem C2_deterministic_partitioning (h : Hash) (F : List Nat) (n : Nat) (hn : 1 ≤ n) :
    (∀ i, i < n - 1 →
      (sendChunks F n)[i]? = some ((F.drop (i * (F.length / n))).take (F.length / n)) ∧
      ∀ c, (sendChunks F n)[i]? = some c → c.length = F.length / n) ∧
    (sendChunks F n)[n - 1]? = some (F.drop ((n - 1) * (F.length / n))) ∧
    (∀ c, (sendChunks F n)[n - 1]? = some c →
      c.length = F.length - (n - 1) * (F.length / n)) ∧
    (sendChunks F n).flatten = F ∧
    seqChunks F n = sendChunks F n ∧
    calculate_chunk_checksums h F n = (sendChunks F n).map h := by
  rw [sendChunks_eq_chunksNF F n hn]
  have hcs : (F.length / n) * n ≤ F.length := Nat.div_mul_le_self _ _
  refine ⟨?_, ?_, ?_, ?_, ?_, ?_⟩
  · intro i hi
    refine ⟨chunksNF_getElem_lt F _ _ i hi, ?_⟩
    intro c hc
    rw [chunksNF_getElem_lt F _ _ i hi] at hc
    obtain rfl : ((F.drop (i * (F.length / n))).take (F.length / n)) = c :=
      Option.some_injective _ hc
    have hb : (i + 1) * (F.length / n) ≤ F.length := by
      calc (i + 1) * (F.length / n) ≤ n * (F.length / n) :=
            Nat.mul_le_mul_right _ (by omega)
        _ = (F.length / n) * n := Nat.mul_comm _ _
        _ ≤ F.length := hcs
    rw [List.length_take, List.length_drop]
    rw [Nat.succ_mul] at hb
    omega
  · exact chunksNF_getElem_last F _ _
  · intro c hc
    rw [chunksNF_getElem_last F _ _] at hc
    obtain rfl : F.drop ((n - 1) * (F.length / n)) = c := Option.some_injective _ hc
    rw [List.length_drop]
  · exact flatten_chunksNF F _ _
  · exact seqChunks_eq_chunksNF F n hn
  · unfold calculate_chunk_checksums
    rw [seqChunks_eq_chunksNF F n hn]

/-- Witness for C2 at the spec's scenario S2: `F = 0..9`, `n = 3`. -/
theorem C2_witness :
    1 ≤ 3 ∧ (sendChunks [0, 1, 2, 3, 4, 5, 6, 7, 8, 9] 3).flatten =
      [0, 1, 2, 3, 4, 5, 6, 7, 8, 9] :=
  ⟨by decide, (C2_deterministic_partitioning (fun l => toString l)
      [0, 1, 2, 3, 4, 5, 6, 7, 8, 9] 3 (by decide)).2.2.2.1⟩


/-! ## Transfer-engine lemmas -/

theorem readChunkLoop_exact (cs : Nat) :
    ∀ (fuel : Nat) (s acc : List Nat), s.length < fuel → acc.length + s.length = cs →
      readChunkLoop cs fuel s acc = acc ++ s := by
  intro fuel
  induction fuel with
  | zero => intro s acc hf _; omega
  | succ f ih =>
    intro s acc hf hlen
    rw [readChunkLoop]
    by_cases hacc : acc.length < cs
    · have hs : s ≠ [] := by
        intro hnil
        subst hnil
        simp at hlen
        omega
      have hblock : (s.take 1048576).isEmpty = false := by
        cases htake : s.take 1048576 with
        | nil =>
          exfalso
          have hlen2 : (s.take 1048576).length = min 1048576 s.length := List.length_take _ _
          have hsl : s.length ≠ 0 := fun h0 => hs (List.length_eq_zero.mp h0)
          rw [htake, List.length_nil] at hlen2
          omega
        | cons a t => rfl
      rw [if_pos hacc]
      simp only [hblock, Bool.false_eq_true, if_false]
      rw [ih]
      · rw [List.append_assoc, List.take_append_drop]
      · rw [List.length_drop]; omega
      · rw [List.length_append, List.length_take, List.length_drop]; omega
    · have hs0 : s.length = 0 := by omega
      obtain rfl : s = [] := List.length_eq_zero.mp hs0
      simp [hacc]

theorem readChunkData_exact (d : List Nat) : readChunkData d.length d = d := by
  unfold readChunkData
  rw [readChunkLoop_exact d.length (d.length + 1) d [] (by omega) (by simp)]
  simp

theorem length_sendChunks (F : List Nat) (n : Nat) : (sendChunks F n).length = n := by
  simp [sendChunks]

theorem flatten_sendChunks (F : List Nat) (n : Nat) (hn : 1 ≤ n) :
    (sendChunks F n).flatten = F := by
  rw [sendChunks_eq_chunksNF F n hn]
  exact flatten_chunksNF F _ _

theorem receiveChunksLoop_mkStreams (h : Hash) :
    ∀ (L : List (List Nat)) (i0 : Nat) (m : ChunkMap),
      ∃ m2, receiveChunksLoop h (mkStreams h i0 L) i0 m = .ok m2 ∧
        (∀ k, k < L.length → m2 (i0 + k) = L[k]?) ∧
        (∀ j, j < i0 → m2 j = m j) := by
  intro L
  induction L with
  | nil =>
    intro i0 m
    exact ⟨m, rfl, by simp, fun j _ => rfl⟩
  | cons c rest ih =>
    intro i0 m
    have hrc : receive_chunk h ⟨i0, c.length, h c⟩ c i0 m =
        .ok (fun j => if j = i0 then some (readChunkData c.length c) else m j) := by
      simp [receive_chunk, readChunkData_exact]
    obtain ⟨m2, hloop, hk, hlt⟩ :=
      ih (i0 + 1) (fun j => if j = i0 then some (readChunkData c.length c) else m j)
    refine ⟨m2, ?_, ?_, ?_⟩
    · rw [mkStreams]
      simp only [receiveChunksLoop, hrc, hloop]
    · intro k hk2
      cases k with
      | zero =>
        have hz := hlt i0 (by omega)
        rw [Nat.add_zero, hz, if_pos rfl, readChunkData_exact]
        simp
      | succ k2 =>
        have hs := hk k2 (by simpa using hk2)
        rw [show i0 + (k2 + 1) = (i0 + 1) + k2 by omega, hs]
        simp
    · intro j hj
      rw [hlt j (by omega), if_neg (by omega)]

theorem reassemble_eq (m : ChunkMap) (L : List (List Nat))
    (hm : ∀ k, k < L.length → m k = L[k]?) :
    reassemble m L.length = .ok L.flatten := by
  induction L using List.reverseRecOn with
  | nil => simp [reassemble]
  | append_singleton L2 c ih =>
    have hlen : (L2 ++ [c]).length = L2.length + 1 := by simp
    rw [hlen]
    have hm2 : ∀ k, k < L2.length → m k = L2[k]? := by
      intro k hk2
      have h3 := hm k (by simp only [List.length_append, List.length_singleton]; omega)
      rwa [List.getElem?_append, if_pos hk2] at h3
    have hc : m L2.length = some c := by
      have h4 := hm L2.length (by simp)
      rwa [List.getElem?_append, if_neg (lt_irrefl _), Nat.sub_self] at h4
    rw [reassemble]
    simp [ih hm2, hc, List.flatten_append]

/-! ## Claim C1: round-trip identity -/

/-- C1: for every file `F` and every `n` with `1 ≤ n ≤ 32`, a successful
transfer (the sender's streams consumed by `receive_file`) materialises
exactly the bytes of `F` at `output_dir/filename` and returns the output
path, and the sender's whole-file digest (the descriptor checksum) equals
the digest the receiver computes over the reassembled file (which is the
digest of `F` itself). -/
theorem C1_roundtrip (h : Hash) (F : List Nat) (n : Nat) (fn outDir : String)
    (basePort : Nat) (fs : FS) (h1 : 1 ≤ n) (h2 : n ≤ 32) :
    (receive_file h (senderMetadata h F n fn basePort) (senderStreams h F n) outDir fs).2 =
      .ok (outDir ++ "/" ++ fn) ∧
    getKV (receive_file h (senderMetadata h F n fn basePort)
        (senderStreams h F n) outDir fs).1 (outDir ++ "/" ++ fn) = some F ∧
    (senderMetadata h F n fn basePort).checksum = h F := by
  obtain ⟨m2, hloop, hk, -⟩ :=
    receiveChunksLoop_mkStreams h (sendChunks F n) 0 (fun _ => none)
  have hre : reassemble m2 n = .ok F := by
    have h5 := reassemble_eq m2 (sendChunks F n) (fun k hk2 => by simpa using hk k hk2)
    rw [length_sendChunks] at h5
    rw [h5, flatten_sendChunks F n h1]
  have hrf : receive_file h (senderMetadata h F n fn basePort)
      (senderStreams h F n) outDir fs =
      (setKV fs (outDir ++ "/" ++ fn) F, .ok (outDir ++ "/" ++ fn)) := by
    unfold receive_file senderStreams
    simp only [hloop, senderMetadata, hre]
    simp
  refine ⟨?_, ?_, rfl⟩
  · rw [hrf]
  · rw [hrf]
    exact getKV_setKV_self fs _ F

/-- Witness for C1 at the spec scenario S1: one byte `0x41`, one part. -/
theorem C1_witness :
    ((1 ≤ 1 ∧ 1 ≤ 32) : Prop) ∧
    (receive_file (fun l => toString l)
        (senderMetadata (fun l => toString l) [65] 1 "f" 5001)
        (senderStreams (fun l => toString l) [65] 1) "/tmp/airtrans" []).2 =
      .ok "/tmp/airtrans/f" :=
  ⟨⟨by decide, by decide⟩,
    (C1_roundtrip (fun l => toString l) [65] 1 "f" "/tmp/airtrans" 5001 []
      (by decide) (by decide)).1⟩

/-! ## Claim C3: integrity failures are fatal -/

/-- C3: if the digest of the received payload differs from the checksum in
the part preamble, `receive_chunk` raises (and hence stores nothing), and if
the digest of the reassembled file differs from the descriptor checksum,
`receive_file` raises instead of returning the output path. -/
theorem C3_integrity_failures_fatal (h : Hash) (pre : Preamble) (streamData : List Nat)
    (cid : Nat) (chunks : ChunkMap) (meta : Metadata)
    (streams : List (Preamble × List Nat)) (outDir : String) (fs : FS)
    (chunksF : ChunkMap) (fileData : List Nat)
    (hpre : h (readChunkData pre.size streamData) ≠ pre.checksum)
    (hloop : receiveChunksLoop h streams 0 (fun _ => none) = .ok chunksF)
    (hre : reassemble chunksF meta.num_parts = .ok fileData)
    (hfile : h fileData ≠ meta.checksum) :
    receive_chunk h pre streamData cid chunks =
      .error ("Chunk " ++ toString cid ++ " checksum mismatch!") ∧
    (∀ m2, receive_chunk h pre streamData cid chunks ≠ .ok m2) ∧
    (receive_file h meta streams outDir fs).2 = .error "Final file checksum mismatch!" ∧
    ∀ p, (receive_file h meta streams outDir fs).2 ≠ .ok p := by
  have h1 : receive_chunk h pre streamData cid chunks =
      .error ("Chunk " ++ toString cid ++ " checksum mismatch!") := by
    simp [receive_chunk, hpre]
  have h2 : (receive_file h meta streams outDir fs).2 =
      .error "Final file checksum mismatch!" := by
    unfold receive_file
    simp only [hloop, hre]
    simp [hfile]
  refine ⟨h1, ?_, h2, ?_⟩
  · intro m2
    rw [h1]
    simp
  · intro p
    rw [h2]
    simp

/-- Witness for C3: a part whose preamble carries the wrong digest, and a
transfer whose descriptor carries the wrong whole-file digest. -/
theorem C3_witness :
    ((fun l => toString l) (readChunkData 1 [7]) ≠ "WRONG") ∧
    (receive_file (fun l => toString l) ⟨"f", 1, [5001], 1, "BAD"⟩
        [(⟨0, 1, (fun l => toString l) [7]⟩, [7])] "/tmp/airtrans" []).2 =
      .error "Final file checksum mismatch!" :=
  ⟨by decide,
    (C3_integrity_failures_fatal (fun l => toString l) ⟨0, 1, "WRONG"⟩ [7] 0
      (fun _ => none) ⟨"f", 1, [5001], 1, "BAD"⟩
      [(⟨0, 1, (fun l => toString l) [7]⟩, [7])] "/tmp/airtrans" []
      (fun j => if j = 0 then some [7] else none) [7]
      (by decide) (by rfl) (by rfl) (by decide)).2.2.1⟩


/-! ## Claim C4: duplicate chunk ids -/

/-- C4 counterexample: two connections of one receive session whose
preambles both carry `chunk_id = 0` (with correct sizes and digests) are
both accepted — the receiver ignores the preamble `chunk_id` entirely and
the transfer succeeds instead of failing. -/
theorem C4_counterexample :
    (([(⟨0, 1, (fun l => toString l) [1]⟩, [1]),
       (⟨0, 1, (fun l => toString l) [2]⟩, [2])] :
        List (Preamble × List Nat)).map (fun p => p.1.chunk_id) = [0, 0]) ∧
    (receive_file (fun l => toString l)
        ⟨"f", 2, [5001, 5002], 2, (fun l => toString l) [1, 2]⟩
        [(⟨0, 1, (fun l => toString l) [1]⟩, [1]),
         (⟨0, 1, (fun l => toString l) [2]⟩, [2])] "/tmp/airtrans" []).2 =
      .ok "/tmp/airtrans/f" := by
  constructor
  · rfl
  · rfl

/-- C4 (amended): `receive_chunk` never reads the preamble's `chunk_id`;
each part is keyed by the connection's port index, so a duplicate preamble
`chunk_id` on a second connection is not detected — the part is simply
stored under its own port index whenever its digest matches. -/
theorem C4_amended_port_keyed (h : Hash) (a b sz : Nat) (ck : String)
    (data : List Nat) (cid : Nat) (m : ChunkMap) :
    receive_chunk h ⟨a, sz, ck⟩ data cid m = receive_chunk h ⟨b, sz, ck⟩ data cid m ∧
    (h (readChunkData sz data) = ck →
      receive_chunk h ⟨a, sz, ck⟩ data cid m =
        .ok fun j => if j = cid then some (readChunkData sz data) else m j) := by
  constructor
  · rfl
  · intro hck
    simp [receive_chunk, hck]

/-- Witness for C4's amended theorem: two preambles differing only in
`chunk_id` produce identical receiver behaviour. -/
theorem C4_amended_witness :
    ((fun l => toString l) (readChunkData 1 [7]) = (fun l => toString l) [7]) ∧
    receive_chunk (fun l => toString l) ⟨5, 1, (fun l => toString l) [7]⟩ [7] 0
        (fun _ => none) =
      receive_chunk (fun l => toString l) ⟨9, 1, (fun l => toString l) [7]⟩ [7] 0
        (fun _ => none) :=
  ⟨by decide,
    (C4_amended_port_keyed (fun l => toString l) 5 9 1 ((fun l => toString l) [7])
      [7] 0 (fun _ => none)).1⟩

/-! ## Claim C5: output placement vs. verification -/

/-- C5 counterexample: a transfer whose descriptor checksum does not match
the reassembled bytes fails the final verification, yet the complete
reassembled file sits at the final path `output_dir/filename` — it was
written there before the whole-file checksum was checked. -/
theorem C5_counterexample :
    (receive_file (fun l => toString l) ⟨"f", 1, [5001], 1, "tampered"⟩
        (senderStreams (fun l => toString l) [7] 1) "/tmp/airtrans" []).2 =
      .error "Final file checksum mismatch!" ∧
    getKV (receive_file (fun l => toString l) ⟨"f", 1, [5001], 1, "tampered"⟩
        (senderStreams (fun l => toString l) [7] 1) "/tmp/airtrans" []).1
      "/tmp/airtrans/f" = some [7] := by
  constructor
  · rfl
  · rfl

/-- C5 (amended): whenever all parts are received, `receive_file` writes the
reassembled bytes directly to `output_dir/filename` before the whole-file
digest is checked; on a digest mismatch it raises, so the transfer is not
reported successful, but the complete file remains at the final path. -/
theorem C5_amended_write_before_verify (h : Hash) (meta : Metadata)
    (streams : List (Preamble × List Nat)) (outDir : String) (fs : FS)
    (chunksF : ChunkMap) (fileData : List Nat)
    (hloop : receiveChunksLoop h streams 0 (fun _ => none) = .ok chunksF)
    (hre : reassemble chunksF meta.num_parts = .ok fileData) :
    getKV (receive_file h meta streams outDir fs).1 (outDir ++ "/" ++ meta.filename) =
      some fileData ∧
    (h fileData ≠ meta.checksum →
      (receive_file h meta streams outDir fs).2 = .error "Final file checksum mismatch!") ∧
    (h fileData = meta.checksum →
      (receive_file h meta streams outDir fs).2 = .ok (outDir ++ "/" ++ meta.filename)) := by
  unfold receive_file
  simp only [hloop, hre]
  by_cases hck : h fileData = meta.checksum
  · simp [hck, getKV_setKV_self]
  · simp [hck, getKV_setKV_self]

/-- Witness for C5's amended theorem at a failing whole-file digest. -/
theorem C5_amended_witness :
    reassemble (fun j => if j = 0 then some [7] else none) 1 = .ok [7] ∧
    getKV (receive_file (fun l => toString l) ⟨"f", 1, [5001], 1, "tampered"⟩
        [(⟨0, 1, (fun l => toString l) [7]⟩, [7])] "/tmp/airtrans" []).1
      "/tmp/airtrans/f" = some [7] :=
  ⟨by rfl,
    (C5_amended_write_before_verify (fun l => toString l)
      ⟨"f", 1, [5001], 1, "tampered"⟩
      [(⟨0, 1, (fun l => toString l) [7]⟩, [7])] "/tmp/airtrans" []
      (fun j => if j = 0 then some [7] else none) [7]
      (by rfl) (by rfl)).1⟩


/-! ## Claim C6: descriptor validation at join -/

/-- C6 counterexample: a descriptor with `filesize = 0` (not strictly
positive) but all required fields present and `len(ports) = num_parts` is
accepted by `/join-session`: validation passes, the handler answers 200 and
stores a session — not 400 with no session as the claim requires. -/
theorem C6_counterexample :
    validate_metadata
      ⟨some "f", some 0, some "1.2.3.4", some [5001], some 1, some "abc"⟩ = true ∧
    join_session []
      (some ⟨some "f", some 0, some "1.2.3.4", some [5001], some 1, some "abc"⟩)
      "sid" =
      (200, [("sid",
        ⟨⟨some "f", some 0, some "1.2.3.4", some [5001], some 1, some "abc"⟩,
          "ready", some "receiver", [((0 : Int), (0 : Int))]⟩)]) := by
  constructor
  · rfl
  · rfl

/-- C6 (amended): `/join-session` answers 400 and stores nothing exactly
when the body has no metadata, a required field (`filename`, `filesize`,
`ip`, `ports`, `num_parts`, `checksum`) is missing, or
`len(ports) ≠ num_parts`; `filesize` is never range-checked, so any
descriptor passing those checks — non-positive `filesize` included — is
stored as a `ready` receiver session with status 200. -/
theorem C6_amended_join_validation (sessions : List (String × AppSession))
    (m : PyMetadata) (nid : String) :
    (join_session sessions none nid = (400, sessions)) ∧
    (validate_metadata m = false →
      join_session sessions (some m) nid = (400, sessions)) ∧
    ((m.filename.isNone ∨ m.filesize.isNone ∨ m.ip.isNone ∨ m.ports.isNone ∨
        m.num_parts.isNone ∨ m.checksum.isNone) → validate_metadata m = false) ∧
    (∀ psl npv, m.ports = some psl → m.num_parts = some npv →
      (psl.length : Int) ≠ npv → validate_metadata m = false) ∧
    (∀ psl npv, m.filename.isSome → m.filesize.isSome → m.ip.isSome →
      m.checksum.isSome → m.ports = some psl → m.num_parts = some npv →
      (psl.length : Int) = npv →
      (join_session sessions (some m) nid).1 = 200 ∧
      getKV (join_session sessions (some m) nid).2 nid =
        some ⟨m, "ready", some "receiver",
          (List.range npv.toNat).map fun i => ((i : Int), 0)⟩) := by
  obtain ⟨f, fsz, ip, ps, np, ck⟩ := m
  refine ⟨rfl, ?_, ?_, ?_, ?_⟩
  · intro hv
    simp [join_session, hv]
  · intro hmiss
    cases f <;> cases fsz <;> cases ip <;> cases ps <;> cases np <;> cases ck <;>
      simp_all [validate_metadata]
  · intro psl npv hps hnp hne
    subst hps
    subst hnp
    cases f <;> cases fsz <;> cases ip <;> cases ck <;>
      simp_all [validate_metadata]
  · intro psl npv hf hfsz hip hck hps hnp heq
    subst hps
    subst hnp
    obtain ⟨fv, rfl⟩ := Option.isSome_iff_exists.mp hf
    obtain ⟨fszv, rfl⟩ := Option.isSome_iff_exists.mp hfsz
    obtain ⟨ipv, rfl⟩ := Option.isSome_iff_exists.mp hip
    obtain ⟨ckv, rfl⟩ := Option.isSome_iff_exists.mp hck
    have hv : validate_metadata
        ⟨some fv, some fszv, some ipv, some psl, some npv, some ckv⟩ = true := by
      simp [validate_metadata, heq]
    refine ⟨?_, ?_⟩
    · simp [join_session, hv]
    · simp [join_session, hv, getKV_setKV_self]

/-- Witness for C6's amended theorem. -/
theorem C6_amended_witness :
    validate_metadata
      ⟨some "f", none, some "1.2.3.4", some [5001], some 1, some "abc"⟩ = false ∧
    join_session []
      (some ⟨some "f", none, some "1.2.3.4", some [5001], some 1, some "abc"⟩)
      "sid" = (400, []) :=
  ⟨(C6_amended_join_validation []
      ⟨some "f", none, some "1.2.3.4", some [5001], some 1, some "abc"⟩ "sid").2.2.1
      (by simp),
    (C6_amended_join_validation []
      ⟨some "f", none, some "1.2.3.4", some [5001], some 1, some "abc"⟩ "sid").2.1
      (by decide)⟩

/-! ## Claim C7: completion verdict -/

/-- C7 counterexample: a joined session whose descriptor checksum is the
empty string (accepted by `/join-session`, which never inspects the
checksum's value).  Reporting the equal checksum `""` to `/complete` yields
`checksum_match = None` — not `true` — and the session is marked `failed`,
not `completed`, because `elif received_checksum:` treats the empty string
as falsy. -/
theorem C7_counterexample :
    (let s : AppSession :=
      ⟨⟨some "f", some 10, some "ip", some [5001], some 1, some ""⟩,
        "ready", some "receiver", [((0 : Int), (0 : Int))]⟩
     s.metadata.checksum = some "" ∧
     complete_transfer (fun l => toString l) [] s none (some "") =
       .ok (⟨"failed", none, ""⟩, { s with status := "failed" })) := by
  constructor
  · rfl
  · rfl

/-- C7 (amended): for a session whose descriptor checksum is present, a
`/complete` request carrying no output path and a non-empty reported
checksum answers `checksum_match = true` and state `completed` when the
reported checksum equals the descriptor's, and `checksum_match = false`
and state `failed` when it differs. -/
theorem C7_amended_complete_verdict (h : Hash) (fs : FS) (s : AppSession)
    (ck expected : String)
    (hexp : s.metadata.checksum = some expected)
    (hne : ck ≠ "") :
    (ck = expected →
      complete_transfer h fs s none (some ck) =
        .ok (⟨"completed", some true, expected⟩, { s with status := "completed" })) ∧
    (ck ≠ expected →
      complete_transfer h fs s none (some ck) =
        .ok (⟨"failed", some false, expected⟩, { s with status := "failed" })) := by
  unfold complete_transfer
  rw [hexp]
  constructor
  · intro heq
    subst heq
    simp [truthyS, hne]
  · intro hneq
    simp [truthyS, hne, hneq]

/-- Witness for C7's amended theorem: a matching non-empty checksum. -/
theorem C7_amended_witness :
    (let s : AppSession :=
      ⟨⟨some "f", some 10, some "ip", some [5001], some 1, some "abc"⟩,
        "ready", some "receiver", [((0 : Int), (0 : Int))]⟩
     s.metadata.checksum = some "abc" ∧ ("abc" : String) ≠ "" ∧
     complete_transfer (fun l => toString l) [] s none (some "abc") =
       .ok (⟨"completed", some true, "abc"⟩, { s with status := "completed" })) :=
  ⟨rfl, by decide,
    (C7_amended_complete_verdict (fun l => toString l) []
      ⟨⟨some "f", some 10, some "ip", some [5001], some 1, some "abc"⟩,
        "ready", some "receiver", [((0 : Int), (0 : Int))]⟩
      "abc" "abc" rfl (by decide)).1 rfl⟩


/-! ## Claim C8: progress bound -/

/-- C8 counterexample: a session with `filesize = 10`; one
`/update-progress` call reporting 100 bytes for chunk 0 is accepted (200),
and `/progress` then reports a transferred total of 100 — exceeding the
descriptor's filesize, which the claim says can never happen. -/
theorem C8_counterexample :
    (let s : AppSession :=
      ⟨⟨some "f", some 10, some "ip", some [5001], some 1, some "x"⟩,
        "ready", some "receiver", [((0 : Int), (0 : Int))]⟩
     (update_progress s (some 0) (some 100)).1 = 200 ∧
     ((get_progress (update_progress s (some 0) (some 100)).2).toOption.map
        fun r => (r.status, r.total_transferred, r.filesize)) =
       some ("completed", 100, 10) ∧
     ¬ ((100 : Int) ≤ 10)) := by
  refine ⟨rfl, rfl, by decide⟩

/-- C8 (amended): the total reported by `/progress` is exactly the sum of
the most recently stored per-chunk counters: `/update-progress` stores the
reported value verbatim under its `chunk_id` (leaving other chunks
unchanged) and `/progress` reports the plain sum, with no bound against
`filesize` enforced anywhere. -/
theorem C8_amended_progress_total (s : AppSession) (cid b fsz np : Int)
    (hf : s.metadata.filesize = some fsz) (hnp : s.metadata.num_parts = some np)
    (hfz : fsz ≠ 0) :
    ∃ r, get_progress (update_progress s (some cid) (some b)).2 = .ok r ∧
      r.total_transferred = ((setKV s.progress cid b).map fun kv => kv.2).sum ∧
      getKV (setKV s.progress cid b) cid = some b ∧
      ∀ k, k ≠ cid → getKV (setKV s.progress cid b) k = getKV s.progress k := by
  obtain ⟨md, st, rl, pg⟩ := s
  obtain ⟨f1, f2, f3, f4, f5, f6⟩ := md
  subst hf
  subst hnp
  refine ⟨⟨if ((setKV pg cid b).map fun kv => kv.2).sum ≥ fsz
          then "completed" else "transferring",
        ((setKV pg cid b).map fun kv => kv.2).sum, fsz,
        ((((setKV pg cid b).map fun kv => kv.2).sum : ℚ) / (fsz : ℚ)) * 100, np⟩,
      ?_, rfl, getKV_setKV_self pg cid b, fun k hk => getKV_setKV_ne pg cid k b hk⟩
  simp [update_progress, get_progress, hfz]
  rfl

/-- Witness for C8's amended theorem. -/
theorem C8_amended_witness :
    (let s : AppSession :=
      ⟨⟨some "f", some 10, some "ip", some [5001], some 1, some "x"⟩,
        "ready", some "receiver", [((0 : Int), (0 : Int))]⟩
     s.metadata.filesize = some 10 ∧ s.metadata.num_parts = some 1 ∧
     ((10 : Int) ≠ 0) ∧
     ∃ r, get_progress (update_progress s (some 0) (some 100)).2 = .ok r ∧
       r.total_transferred = ((setKV s.progress 0 100).map fun kv => kv.2).sum ∧
       getKV (setKV s.progress 0 100) 0 = some 100 ∧
       ∀ k, k ≠ 0 → getKV (setKV s.progress 0 100) k = getKV s.progress k) :=
  ⟨rfl, rfl, by decide,
    C8_amended_progress_total
      ⟨⟨some "f", some 10, some "ip", some [5001], some 1, some "x"⟩,
        "ready", some "receiver", [((0 : Int), (0 : Int))]⟩
      0 100 10 1 rfl rfl (by decide)⟩

/-! ## Claim C10: update-progress drives session state -/

/-- C10: on a session with a `filesize`, `/update-progress` with both
fields present sets the status to `completed` exactly when the sum of the
stored per-chunk counters reaches `filesize` and to `transferring`
otherwise (so a later smaller total moves a `completed` session back to
`transferring`), and the outcome is independent of the descriptor checksum
— no checksum verification is involved. -/
theorem C10_update_progress_status (s : AppSession) (cid b fsz : Int)
    (hf : s.metadata.filesize = some fsz) :
    ((update_progress s (some cid) (some b)).2.status =
      if ((setKV s.progress cid b).map fun kv => kv.2).sum ≥ fsz
      then "completed" else "transferring") ∧
    (((setKV s.progress cid b).map fun kv => kv.2).sum < fsz →
      (update_progress s (some cid) (some b)).2.status = "transferring") ∧
    (∀ ck1 ck2 : Option String,
      (update_progress { s with metadata := { s.metadata with checksum := ck1 } }
          (some cid) (some b)).2.status =
      (update_progress { s with metadata := { s.metadata with checksum := ck2 } }
          (some cid) (some b)).2.status) := by
  obtain ⟨md, st, rl, pg⟩ := s
  obtain ⟨f1, f2, f3, f4, f5, f6⟩ := md
  subst hf
  refine ⟨?_, ?_, ?_⟩
  · simp [update_progress]
  · intro hlt
    simp [update_progress, not_le.mpr hlt]
  · intro ck1 ck2
    simp [update_progress]

/-- Witness for C10: a completed session pulled back to `transferring` by a
smaller reported total. -/
theorem C10_witness :
    (let s : AppSession :=
      ⟨⟨some "f", some 10, some "ip", some [5001], some 1, some "x"⟩,
        "completed", some "receiver", [((0 : Int), (100 : Int))]⟩
     s.metadata.filesize = some 10 ∧
     ((setKV s.progress 0 3).map fun kv => kv.2).sum < 10 ∧
     (update_progress s (some 0) (some 3)).2.status = "transferring") :=
  ⟨rfl, by decide,
    (C10_update_progress_status
      ⟨⟨some "f", some 10, some "ip", some [5001], some 1, some "x"⟩,
        "completed", some "receiver", [((0 : Int), (100 : Int))]⟩
      0 3 10 rfl).2.1 (by decide)⟩

/-! ## Claim C9: peer liveness and eviction -/

/-- C9 counterexample: a peer whose announcement is exactly 30 seconds old
is returned by `PeerDiscovery.get_peers` (the stale test is `> 30`) but not
by `MulticastDiscovery.get_peers` (whose liveness test is the strict
`< 30`); and the multicast variant deletes nothing — a peer 100 seconds
stale is still in its table after the query.  The two variants therefore do
not both implement "return exactly `≤ 30`, evict `> 30`". -/
theorem C9_counterexample :
    (let p : PeerRec := ⟨"d", "1.2.3.4", 8000, 0⟩
     MulticastDiscovery.get_peers [("1.2.3.4", p)] 30 = ([], [("1.2.3.4", p)]) ∧
     PeerDiscovery.get_peers [("1.2.3.4", p)] 30 = ([p], [("1.2.3.4", p)]) ∧
     MulticastDiscovery.get_peers [("1.2.3.4", p)] 100 = ([], [("1.2.3.4", p)])) := by
  refine ⟨?_, ?_, ?_⟩ <;>
    norm_num [MulticastDiscovery.get_peers, PeerDiscovery.get_peers, List.filter_cons]

/-- C9 (amended): `PeerDiscovery.get_peers` returns exactly the records
with `now - last_seen ≤ 30` and its table afterwards holds exactly those
records (the `> 30` ones are deleted); `MulticastDiscovery.get_peers`
returns exactly the records with the strict `now - last_seen < 30` and
never mutates its table. -/
theorem C9_amended_liveness (peers : List (String × PeerRec)) (now : ℚ) :
    (∀ p, p ∈ (PeerDiscovery.get_peers peers now).1 ↔
      ∃ k, (k, p) ∈ peers ∧ now - p.last_seen ≤ 30) ∧
    (∀ kv, kv ∈ (PeerDiscovery.get_peers peers now).2 ↔
      kv ∈ peers ∧ now - kv.2.last_seen ≤ 30) ∧
    (∀ p, p ∈ (MulticastDiscovery.get_peers peers now).1 ↔
      ∃ k, (k, p) ∈ peers ∧ now - p.last_seen < 30) ∧
    (MulticastDiscovery.get_peers peers now).2 = peers := by
  refine ⟨?_, ?_, ?_, rfl⟩
  · intro p
    simp only [PeerDiscovery.get_peers, List.mem_map, List.mem_filter,
      decide_eq_true_eq, not_lt]
    constructor
    · rintro ⟨a, ⟨ha, hc⟩, rfl⟩
      exact ⟨a.1, ha, hc⟩
    · rintro ⟨k, hk, hc⟩
      exact ⟨(k, p), ⟨hk, hc⟩, rfl⟩
  · intro kv
    simp [PeerDiscovery.get_peers, List.mem_filter, not_lt]
  · intro p
    simp only [MulticastDiscovery.get_peers, List.mem_map, List.mem_filter,
      decide_eq_true_eq]
    constructor
    · rintro ⟨a, ⟨ha, hc⟩, rfl⟩
      exact ⟨a.1, ha, hc⟩
    · rintro ⟨k, hk, hc⟩
      exact ⟨(k, p), ⟨hk, hc⟩, rfl⟩

end AirTrans
